import Mathlib

/-
  Verification of scripts/patch_wasm_table.py.

  Shallow embedding: bytes are modelled as `List Nat` (each element a byte
  value 0..255 in the Python `bytes` object), fallible operations return
  `Except String` carrying the exception message, and the per-file loop of
  `main` threads the file contents explicitly.  Machine arithmetic in the
  script is Python unbounded-int arithmetic, so plain `Nat` is exact.
-/

namespace PatchWasmTable

/-- One iteration state of the `while True` loop of `_read_varuint`.
The Python loop guards against long encodings with `shift += 7; if shift > 35:
raise`, so the loop body can run at most six times from `shift = 0`; `gas`
counts the continuations still allowed (`gas = (42 - shift) / 7` at every
reachable state, six at entry), which makes the recursion structural while
raising the same `varuint too large` error at exactly the same consumed
prefix as the source.  `b % 128` is `b & 0x7F` and `b / 128 % 2 = 0` is
`(b & 0x80) == 0`. -/
def readVaruintAux (data : List Nat) (off : Nat) :
    Nat → Nat → Nat → Nat → Except String (Nat × Nat)
  | _, _, _, 0 => .error "varuint too large"
  | res, shift, n, gas + 1 =>
    if data.length ≤ off + n then .error "unexpected EOF while reading varuint"
    else
      let b := data.getD (off + n) 0
      let res2 := res ||| ((b % 128) <<< shift)
      if b / 128 % 2 = 0 then .ok (res2, n + 1)
      else readVaruintAux data off res2 (shift + 7) (n + 1) gas

/-- `_read_varuint(data, off)`: returns `(value, nbytes)`. -/
def readVaruint (data : List Nat) (off : Nat) : Except String (Nat × Nat) :=
  readVaruintAux data off 0 0 0 6

/-- The `for i in range(width)` loop of `_encode_varuint_fixed_width`,
recursing on the number of bytes still to emit; returns the emitted bytes
and the leftover `value` after the loop. -/
def encodeLoop : Nat → Nat → List Nat × Nat
  | value, 0 => ([], value)
  | value, k + 1 =>
    let byte := value % 128
    let rest := encodeLoop (value / 128) k
    ((if k = 0 then byte else byte + 128) :: rest.1, rest.2)

/-- The byte list emitted by the fixed-width encoder loop. -/
def encBytes (value width : Nat) : List Nat :=
  (encodeLoop value width).1

/-- `_encode_varuint_fixed_width(value, width)`: LEB128-encode into exactly
`width` bytes, raising when the value does not fit. -/
def encodeVaruintFixedWidth (value width : Nat) : Except String (List Nat) :=
  let r := encodeLoop value width
  if r.2 ≠ 0 then .error "value does not fit in fixed width"
  else .ok r.1

/-- Python slice assignment `l[off : off + len(repl)] = repl` (the only form
used by the script: the replacement always has the length of the replaced
range, so the buffer length is preserved). -/
def splice (l : List Nat) (off : Nat) (repl : List Nat) : List Nat :=
  l.take off ++ repl ++ l.drop (off + repl.length)

example : readVaruint [0x80, 0x01] 0 = .ok (128, 2) := rfl
example : readVaruint [0x05] 0 = .ok (5, 1) := rfl
example : readVaruint [0x80] 0 = .error "unexpected EOF while reading varuint" := rfl
example : readVaruint [128, 128, 128, 128, 128, 0] 0 = .ok (0, 6) := rfl
example : readVaruint [128, 128, 128, 128, 128, 128, 0] 0 = .error "varuint too large" := rfl
example : encodeVaruintFixedWidth 127 1 = .ok [127] := rfl
example : encodeVaruintFixedWidth 128 1 = .error "value does not fit in fixed width" := rfl
example : encodeVaruintFixedWidth 1 2 = .ok [129, 0] := rfl

/-- The ASCII bytes of the export name `__wbindgen_externrefs`.  The source
compares `data[p : p + name_len].decode("utf-8", "replace")` with this
string; since every character of the target is ASCII and UTF-8 decoding
with replacement maps a byte sequence to this string exactly when the bytes
are its ASCII encoding, the comparison is modelled as byte-list equality. -/
def wbindgenExternrefsName : List Nat :=
  [95, 95, 119, 98, 105, 110, 100, 103, 101, 110, 95,
   101, 120, 116, 101, 114, 110, 114, 101, 102, 115]

/-- One iteration of the `for table_idx in range(table_count)` loop of
`patch_wasm_file` (section id 4).  Reads from the snapshot `data`, splices
patches into `mutbl`, and returns the updated buffer, cursor, recorded
externref table index and patched flag.  The caller (the section walker)
guarantees `payloadEnd ≤ data.length`, mirroring the bound check the source
performs before entering the section. -/
def patchOneTable (data : List Nat) (payloadEnd tableIdx : Nat)
    (mutbl : List Nat) (p : Nat) (extIdx : Option Nat) (patched : Bool) :
    Except String (List Nat × Nat × Option Nat × Bool) :=
  if payloadEnd ≤ p then .error "table section truncated"
  else
    let elemType := data.getD p 0
    match readVaruint data (p + 1) with
    | .error e => .error e
    | .ok (flags, nf) =>
      match readVaruint data (p + 1 + nf) with
      | .error e => .error e
      | .ok (initial, ni) =>
        let q := p + 1 + nf + ni
        let extIdx2 := if elemType = 0x6F ∧ extIdx = none then some tableIdx else extIdx
        if flags &&& 1 ≠ 0 then
          match readVaruint data q with
          | .error e => .error e
          | .ok (maxVal, maxN) =>
            if elemType = 0x6F ∧ maxVal < initial + 4 then
              match encodeVaruintFixedWidth ((1 <<< (7 * maxN)) - 1) maxN with
              | .error e => .error e
              | .ok enc => .ok (splice mutbl q enc, q + maxN, extIdx2, true)
            else .ok (mutbl, q + maxN, extIdx2, patched)
        else .ok (mutbl, q, extIdx2, patched)

/-- The table loop of `patch_wasm_file`, recursing on the remaining table
count with the current 0-based table ordinal. -/
def patchTablesLoop (data : List Nat) (payloadEnd : Nat) :
    Nat → Nat → List Nat → Nat → Option Nat → Bool →
    Except String (List Nat × Option Nat × Bool)
  | 0, _, mutbl, _, extIdx, patched => .ok (mutbl, extIdx, patched)
  | count + 1, tableIdx, mutbl, p, extIdx, patched =>
    match patchOneTable data payloadEnd tableIdx mutbl p extIdx patched with
    | .error e => .error e
    | .ok (mutbl2, p2, extIdx2, patched2) =>
      patchTablesLoop data payloadEnd count (tableIdx + 1) mutbl2 p2 extIdx2 patched2

/-- Processing of a table section (id 4): read the table count from the
payload start and run the table loop over a fresh mutable copy of `data`. -/
def patchTableSection (data : List Nat) (payloadOff payloadEnd : Nat)
    (extIdx : Option Nat) (patched : Bool) :
    Except String (List Nat × Option Nat × Bool) :=
  match readVaruint data payloadOff with
  | .error e => .error e
  | .ok (tableCount, n) =>
    patchTablesLoop data payloadEnd tableCount 0 data (payloadOff + n) extIdx patched

/-- One iteration of the export loop of `patch_wasm_file` (section id 7).
`kind = data[p]` raises IndexError when `p` is past the end of the buffer;
the name slice `data[p : p + name_len]` clamps like the Python slice. -/
def patchOneExport (data : List Nat) (extIdx : Nat)
    (mutbl : List Nat) (p : Nat) (patched : Bool) :
    Except String (List Nat × Nat × Bool) :=
  match readVaruint data p with
  | .error e => .error e
  | .ok (nameLen, n) =>
    let name := (data.drop (p + n)).take nameLen
    let pk := p + n + nameLen
    if data.length ≤ pk then .error "index out of range"
    else
      let kind := data.getD pk 0
      let idxOff := pk + 1
      match readVaruint data idxOff with
      | .error e => .error e
      | .ok (idxVal, idxN) =>
        if name = wbindgenExternrefsName ∧ kind = 1 ∧ idxVal ≠ extIdx then
          match encodeVaruintFixedWidth extIdx idxN with
          | .error e => .error e
          | .ok enc => .ok (splice mutbl idxOff enc, idxOff + idxN, true)
        else .ok (mutbl, idxOff + idxN, patched)

/-- The export loop of `patch_wasm_file`, recursing on the remaining export
count. -/
def patchExportsLoop (data : List Nat) (extIdx : Nat) :
    Nat → List Nat → Nat → Bool → Except String (List Nat × Bool)
  | 0, mutbl, _, patched => .ok (mutbl, patched)
  | count + 1, mutbl, p, patched =>
    match patchOneExport data extIdx mutbl p patched with
    | .error e => .error e
    | .ok (mutbl2, p2, patched2) =>
      patchExportsLoop data extIdx count mutbl2 p2 patched2

/-- Processing of an export section (id 7) once an externref table index is
known: read the export count and run the export loop over a fresh mutable
copy of `data`. -/
def patchExportSection (data : List Nat) (payloadOff : Nat) (extIdx : Nat)
    (patched : Bool) : Except String (List Nat × Bool) :=
  match readVaruint data payloadOff with
  | .error e => .error e
  | .ok (exportCount, n) =>
    patchExportsLoop data extIdx exportCount data (payloadOff + n) patched

/-- Outcome of `patch_wasm_file` on one file: a normal return carrying the
final buffer and the patched flag, or a raised exception message.  The
`patched` field of `err` records the value of the local `patched` variable
at the moment the exception is raised (ghost state used by the theorems; it
is determined by the run, not an extra behaviour of the code). -/
inductive Outcome where
  | ok (data : List Nat) (patched : Bool)
  | err (msg : String) (patched : Bool)
deriving Repr, DecidableEq

/-- The `while off < len(data)` section walker of `patch_wasm_file`.
Alongside the outcome it returns the list of buffers passed to
`path.write_bytes`, in order (the source writes the whole buffer after each
section whose processing ends with the cumulative `patched` flag true).
`fuel` bounds the iteration count; every iteration advances `off` by at
least two bytes, so the fuel chosen by `patchWasmFile` is never exhausted on
a run the source performs. -/
def sectionsLoop (path : String) :
    Nat → List Nat → Nat → Bool → Option Nat → List (List Nat) →
    List (List Nat) × Outcome
  | 0, _, _, patched, _, writes => (writes, .err ("fuel exhausted in " ++ path) patched)
  | fuel + 1, data, off, patched, extIdx, writes =>
    if data.length ≤ off then (writes, .ok data patched)
    else
      let sectionId := data.getD off 0
      match readVaruint data (off + 1) with
      | .error e => (writes, .err e patched)
      | .ok (sectionSize, n) =>
        let payloadOff := off + 1 + n
        let payloadEnd := payloadOff + sectionSize
        if data.length < payloadEnd then
          (writes, .err ("invalid section size in " ++ path) patched)
        else if sectionId ≠ 4 ∧ sectionId ≠ 7 then
          sectionsLoop path fuel data payloadEnd patched extIdx writes
        else if sectionId = 4 then
          match patchTableSection data payloadOff payloadEnd extIdx patched with
          | .error e => (writes, .err e patched)
          | .ok (mutbl, extIdx2, patched2) =>
            if patched2 then
              sectionsLoop path fuel mutbl payloadEnd patched2 extIdx2 (writes ++ [mutbl])
            else
              sectionsLoop path fuel data payloadEnd patched2 extIdx2 writes
        else
          match extIdx with
          | none => sectionsLoop path fuel data payloadEnd patched extIdx writes
          | some ei =>
            match patchExportSection data payloadOff ei patched with
            | .error e => (writes, .err e patched)
            | .ok (mutbl, patched2) =>
              if patched2 then
                sectionsLoop path fuel mutbl payloadEnd patched2 extIdx (writes ++ [mutbl])
              else
                sectionsLoop path fuel data payloadEnd patched2 extIdx writes

/-- `patch_wasm_file(path)` on a file whose stored bytes are `data`:
checks the header (`len(data) < 8 or data[:4] != b"\x00asm"`), then walks
the sections starting at offset 8 with no patch applied and no externref
table index recorded.  Returns the write trace and the outcome. -/
def patchWasmFile (path : String) (data : List Nat) :
    List (List Nat) × Outcome :=
  if data.length < 8 ∨ data.take 4 ≠ [0x00, 0x61, 0x73, 0x6D] then
    ([], .err ("not a wasm module: " ++ path) false)
  else sectionsLoop path data.length data 8 false none []

/-- The candidate loop of `main`: processes `(path, contents)` pairs in
order (candidate discovery itself is filesystem glue outside the model).
Returns the exit status, the printed messages in order, and the final
stored contents of every candidate (an erroring run returns immediately,
leaving the remaining candidates untouched). -/
def runMainLoop :
    List (String × List Nat) → Bool → List String → List (String × List Nat) →
    Nat × List String × List (String × List Nat)
  | [], anyPatched, log, done =>
    (0, if anyPatched then log else log ++ ["no changes needed"], done)
  | (path, content) :: rest, anyPatched, log, done =>
    match patchWasmFile path content with
    | (_, .ok newData did) =>
      runMainLoop rest (anyPatched || did)
        (if did then log ++ ["patched: " ++ path] else log)
        (done ++ [(path, newData)])
    | (writes, .err e _) =>
      (2, log ++ ["error: " ++ path ++ ": " ++ e],
       done ++ (path, (writes.getLast?).getD content) :: rest)

/-- `main` restricted to a given candidate list. -/
def runMain (files : List (String × List Nat)) :
    Nat × List String × List (String × List Nat) :=
  runMainLoop files false [] []

/-! Concrete modules used by witnesses and counterexamples. -/

/-- Magic `\x00asm` plus version 1. -/
def wasmHeader : List Nat := [0, 97, 115, 109, 1, 0, 0, 0]

/-- A module with one externref table, flags 1, initial 128 (two-byte
varint), maximum 0 (one byte): the maximum is under `initial + 4`. -/
def fileA : List Nat := wasmHeader ++ [4, 6, 1, 111, 1, 128, 1, 0]

/-- `fileA` after patching: the one-byte maximum becomes 127. -/
def fileA1 : List Nat := wasmHeader ++ [4, 6, 1, 111, 1, 128, 1, 127]

/-- `fileA` followed by a section whose declared size runs past the end of
the buffer. -/
def fileB : List Nat := fileA ++ [5, 32]

/-- `fileB` after its table section is patched. -/
def fileB1 : List Nat := fileA1 ++ [5, 32]

/-- A minimal module with no sections: nothing to patch. -/
def fileC : List Nat := wasmHeader

/-- A buffer that is not a wasm module. -/
def badFile : List Nat := [0]

/-- A module with a funcref table, an externref table (initial 4, maximum 4)
and an export `__wbindgen_externrefs` of kind 1 pointing at table 0. -/
def fileD : List Nat :=
  wasmHeader ++ [4, 8, 2, 112, 0, 0, 111, 1, 4, 4] ++
    [7, 25, 1, 21] ++ wbindgenExternrefsName ++ [1, 0]

/-- `fileD` after the table patch only (the buffer written first). -/
def fileD1 : List Nat :=
  wasmHeader ++ [4, 8, 2, 112, 0, 0, 111, 1, 4, 127] ++
    [7, 25, 1, 21] ++ wbindgenExternrefsName ++ [1, 0]

/-- `fileD` after both patches: maximum 127, export index 1. -/
def fileD2 : List Nat :=
  wasmHeader ++ [4, 8, 2, 112, 0, 0, 111, 1, 4, 127] ++
    [7, 25, 1, 21] ++ wbindgenExternrefsName ++ [1, 1]

example : patchWasmFile "p" fileA = ([fileA1], .ok fileA1 true) := rfl
example : patchWasmFile "p" fileA1 = ([fileA1], .ok fileA1 true) := rfl
example : patchWasmFile "p" fileB =
    ([fileB1], .err "invalid section size in p" true) := rfl
example : patchWasmFile "p" fileC = ([], .ok fileC false) := rfl
example : patchWasmFile "p" badFile = ([], .err "not a wasm module: p" false) := rfl
example : patchWasmFile "p" fileD = ([fileD1, fileD2], .ok fileD2 true) := rfl
example : patchWasmFile "p" fileD2 = ([], .ok fileD2 false) := rfl

/-! Arithmetic and list helpers. -/

lemma or_shiftLeft_eq_add {a s : Nat} (h : a < 2 ^ s) (b : Nat) :
    a ||| (b <<< s) = a + 2 ^ s * b := by
  rw [Nat.shiftLeft_eq, Nat.mul_comm b, Nat.or_comm, ← Nat.mul_add_lt_is_or h, Nat.add_comm]

lemma getD_append_add (pre l : List Nat) (i d : Nat) :
    (pre ++ l).getD (pre.length + i) d = l.getD i d := by
  simp [List.getD_eq_getElem?_getD, List.getElem?_append_right (Nat.le_add_right _ _)]

lemma two_pow_seven_mul (w : Nat) : 2 ^ (7 * w) = 128 ^ w := by
  rw [pow_mul]; norm_num

/-! Facts about the fixed-width encoder. -/

lemma encodeLoop_length : ∀ (w v : Nat), (encodeLoop v w).1.length = w := by
  intro w
  induction w with
  | zero => intro v; rfl
  | succ w ih => intro v; simp [encodeLoop, ih]

lemma encBytes_length (v w : Nat) : (encBytes v w).length = w :=
  encodeLoop_length w v

lemma encodeLoop_snd : ∀ (w v : Nat), (encodeLoop v w).2 = v / 128 ^ w := by
  intro w
  induction w with
  | zero => intro v; simp [encodeLoop]
  | succ w ih =>
    intro v
    rw [Nat.pow_succ, Nat.mul_comm, ← Nat.div_div_eq_div_mul]
    simpa [encodeLoop] using ih (v / 128)

lemma encodeVaruintFixedWidth_ok {v w : Nat} (h : v < 128 ^ w) :
    encodeVaruintFixedWidth v w = .ok (encBytes v w) := by
  simp [encodeVaruintFixedWidth, encBytes, encodeLoop_snd, Nat.div_eq_of_lt h]

/-! Facts about the varint decoder. -/

lemma readVaruintAux_ok_bounds (data : List Nat) (off : Nat) :
    ∀ gas res shift n v m,
      readVaruintAux data off res shift n gas = .ok (v, m) →
      n < m ∧ m ≤ n + gas ∧ off + m ≤ data.length := by
  intro gas
  induction gas with
  | zero => intro res shift n v m h; simp [readVaruintAux] at h
  | succ gas ih =>
    intro res shift n v m h
    rw [readVaruintAux] at h
    split at h
    · simp at h
    · next hlen =>
      dsimp only at h
      split at h
      · simp only [Except.ok.injEq, Prod.mk.injEq] at h
        obtain ⟨-, rfl⟩ := h
        omega
      · obtain ⟨h1, h2, h3⟩ := ih _ _ _ _ _ h
        omega

/-- Decoding the bytes produced by the fixed-width encoder loop, in any
surrounding buffer, accumulates the encoded value onto `res` and consumes
exactly the encoded width. -/
lemma readVaruintAux_encode (post : List Nat) (off : Nat) :
    ∀ w gas v res shift (pre : List Nat) n,
      w + 1 ≤ gas → v < 2 ^ (7 * (w + 1)) → res < 2 ^ shift →
      pre.length = off + n →
      readVaruintAux (pre ++ encBytes v (w + 1) ++ post) off res shift n gas =
        .ok (res + 2 ^ shift * v, n + (w + 1)) := by
  intro w
  induction w with
  | zero =>
    intro gas v res shift pre n hgas hv hres hpre
    obtain ⟨gas, rfl⟩ : ∃ g, gas = g + 1 := ⟨gas - 1, by omega⟩
    have hv128 : v < 128 := by
      have h7 : (2 : Nat) ^ (7 * 1) = 128 := by norm_num
      omega
    have henc : encBytes v 1 = [v % 128] := rfl
    have hlen : ¬ ((pre ++ encBytes v 1 ++ post).length ≤ off + n) := by
      simp [henc, hpre]
    have hb : (pre ++ encBytes v 1 ++ post).getD (off + n) 0 = v % 128 := by
      have h1 : pre.length ≤ off + n := by omega
      rw [List.append_assoc, List.getD_eq_getElem?_getD, List.getElem?_append_right h1]
      simp [hpre, henc]
    rw [readVaruintAux, if_neg hlen]
    dsimp only
    rw [hb, Nat.mod_eq_of_lt hv128, Nat.div_eq_of_lt hv128]
    rw [if_pos (by norm_num)]
    rw [or_shiftLeft_eq_add hres]
    simp [Nat.mod_eq_of_lt hv128]
  | succ w ih =>
    intro gas v res shift pre n hgas hv hres hpre
    obtain ⟨gas, rfl⟩ : ∃ g, gas = g + 1 := ⟨gas - 1, by omega⟩
    have hb128 : v % 128 < 128 := Nat.mod_lt _ (by norm_num)
    have henc : encBytes v (w + 2) = (v % 128 + 128) :: encBytes (v / 128) (w + 1) := rfl
    have hlen : ¬ ((pre ++ encBytes v (w + 2) ++ post).length ≤ off + n) := by
      simp [henc, hpre]
    have hb : (pre ++ encBytes v (w + 2) ++ post).getD (off + n) 0 = v % 128 + 128 := by
      have h1 : pre.length ≤ off + n := by omega
      rw [List.append_assoc, List.getD_eq_getElem?_getD, List.getElem?_append_right h1]
      simp [hpre, henc]
    rw [readVaruintAux, if_neg hlen]
    dsimp only
    rw [hb]
    rw [if_neg (by omega)]
    have hmod : (v % 128 + 128) % 128 = v % 128 := by omega
    rw [hmod, or_shiftLeft_eq_add hres]
    have hdata : pre ++ encBytes v (w + 2) ++ post
        = (pre ++ [v % 128 + 128]) ++ encBytes (v / 128) (w + 1) ++ post := by
      simp [henc]
    rw [hdata]
    have hdivlt : v / 128 < 2 ^ (7 * (w + 1)) := by
      have he : 7 * (w + 1 + 1) = 7 * (w + 1) + 7 := by ring
      rw [he, pow_add] at hv
      have h7 : (2 : Nat) ^ 7 = 128 := by norm_num
      rw [h7] at hv
      omega
    have hres2 : res + 2 ^ shift * (v % 128) < 2 ^ (shift + 7) := by
      have h2 : 2 ^ shift * (v % 128) ≤ 2 ^ shift * 127 := Nat.mul_le_mul_left _ (by omega)
      have h4 : 2 ^ (shift + 7) = 2 ^ shift + 2 ^ shift * 127 := by
        rw [pow_add]
        have h7 : (2 : Nat) ^ 7 = 128 := by norm_num
        rw [h7]; ring
      omega
    have hpre2 : (pre ++ [v % 128 + 128]).length = off + (n + 1) := by
      simp [hpre]
      omega
    rw [ih gas (v / 128) _ (shift + 7) _ (n + 1) (by omega) hdivlt hres2 hpre2]
    simp only [Except.ok.injEq, Prod.mk.injEq]
    constructor
    · have h4 : 2 ^ (shift + 7) = 2 ^ shift * 128 := by
        rw [pow_add]; norm_num
      rw [h4]
      calc res + 2 ^ shift * (v % 128) + 2 ^ shift * 128 * (v / 128)
          = res + 2 ^ shift * (v % 128 + 128 * (v / 128)) := by ring
        _ = res + 2 ^ shift * v := by rw [show v % 128 + 128 * (v / 128) = v by omega]
    · omega

/-- Round trip: the bytes emitted by the fixed-width encoder decode to the
original value, consuming exactly the width, at any position of any
surrounding buffer. -/
lemma readVaruint_encBytes (pre post : List Nat) {v w : Nat}
    (h1 : 1 ≤ w) (h6 : w ≤ 6) (hv : v < 2 ^ (7 * w)) :
    readVaruint (pre ++ encBytes v w ++ post) pre.length = .ok (v, w) := by
  obtain ⟨u, rfl⟩ : ∃ u, w = u + 1 := ⟨w - 1, by omega⟩
  have := readVaruintAux_encode post pre.length u 6 v 0 0 pre 0
    (by omega) hv (by norm_num) (by omega)
  simpa [readVaruint] using this

/-- The decoder result depends only on the buffer length and on the bytes
it actually consumed. -/
lemma readVaruintAux_congr (off : Nat) :
    ∀ gas res shift n v m (data data2 : List Nat),
      data2.length = data.length →
      readVaruintAux data off res shift n gas = .ok (v, m) →
      (∀ j, off + n ≤ j → j < off + m → data2.getD j 0 = data.getD j 0) →
      readVaruintAux data2 off res shift n gas = .ok (v, m) := by
  intro gas
  induction gas with
  | zero =>
    intro res shift n v m data data2 _ h _
    simp [readVaruintAux] at h
  | succ gas ih =>
    intro res shift n v m data data2 hlen h hagree
    obtain ⟨hnm, -, -⟩ := readVaruintAux_ok_bounds data off (gas + 1) res shift n v m h
    rw [readVaruintAux] at h ⊢
    split at h
    · simp at h
    · next hl =>
      rw [if_neg (by omega : ¬ (data2.length ≤ off + n))]
      dsimp only at h ⊢
      have hbyte : data2.getD (off + n) 0 = data.getD (off + n) 0 :=
        hagree _ (Nat.le_refl _) (by omega)
      rw [hbyte]
      split at h
      · next hcond => rw [if_pos hcond]; exact h
      · next hcond =>
        rw [if_neg hcond]
        exact ih _ _ _ _ _ _ _ hlen h (fun j h1 h2 => hagree j (by omega) h2)

lemma readVaruint_congr {data data2 : List Nat} {off v m : Nat}
    (hlen : data2.length = data.length)
    (h : readVaruint data off = .ok (v, m))
    (hagree : ∀ j, off ≤ j → j < off + m → data2.getD j 0 = data.getD j 0) :
    readVaruint data2 off = .ok (v, m) :=
  readVaruintAux_congr off 6 0 0 0 v m data data2 hlen h
    (fun j h1 h2 => hagree j (by omega) h2)

/-! Facts about `splice` and decoder bounds, used to re-parse a patched
buffer. -/

lemma readVaruint_ok_bounds {data : List Nat} {off v m : Nat}
    (h : readVaruint data off = .ok (v, m)) :
    1 ≤ m ∧ m ≤ 6 ∧ off + m ≤ data.length := by
  obtain ⟨a, b, c⟩ := readVaruintAux_ok_bounds data off 6 0 0 0 v m h
  exact ⟨by omega, by omega, c⟩

lemma splice_length {l repl : List Nat} {off : Nat}
    (h : off + repl.length ≤ l.length) :
    (splice l off repl).length = l.length := by
  simp [splice, List.length_take, List.length_drop]
  omega

lemma splice_getElem?_lt {l repl : List Nat} {off j : Nat}
    (hoff : off ≤ l.length) (hj : j < off) :
    (splice l off repl)[j]? = l[j]? := by
  have hl : (l.take off).length = off := by
    simp [List.length_take]; omega
  have h1 : j < (l.take off ++ repl).length := by
    simp [List.length_append, hl]; omega
  rw [splice, List.getElem?_append_left h1, List.getElem?_append_left (by omega),
    List.getElem?_take, if_pos hj]

lemma splice_getElem?_ge {l repl : List Nat} {off j : Nat}
    (hoff : off ≤ l.length) (hj : off + repl.length ≤ j) :
    (splice l off repl)[j]? = l[j]? := by
  have hl : (l.take off).length = off := by
    simp [List.length_take]; omega
  have h2 : (l.take off ++ repl).length ≤ j := by
    simp [List.length_append, hl]; omega
  rw [splice, List.getElem?_append_right h2, List.getElem?_drop]
  congr 1
  simp [List.length_append, hl]
  omega

lemma splice_getD_lt {l repl : List Nat} {off j : Nat}
    (hoff : off ≤ l.length) (hj : j < off) :
    (splice l off repl).getD j 0 = l.getD j 0 := by
  simp [List.getD_eq_getElem?_getD, splice_getElem?_lt hoff hj]

lemma splice_getD_ge {l repl : List Nat} {off j : Nat}
    (hoff : off ≤ l.length) (hj : off + repl.length ≤ j) :
    (splice l off repl).getD j 0 = l.getD j 0 := by
  simp [List.getD_eq_getElem?_getD, splice_getElem?_ge hoff hj]

/-! The cumulative `patched` flag never falls back from true to false. -/

lemma patchOneTable_mono {data mutbl m2 : List Nat} {pe t p p2 : Nat}
    {extIdx e2 : Option Nat} {b2 : Bool}
    (h : patchOneTable data pe t mutbl p extIdx true = .ok (m2, p2, e2, b2)) :
    b2 = true := by
  rw [patchOneTable] at h
  split at h
  · exact absurd h (by simp)
  · dsimp only at h
    split at h
    · exact absurd h (by simp)
    · split at h
      · exact absurd h (by simp)
      · split at h
        · split at h
          · exact absurd h (by simp)
          · split at h
            · split at h
              · exact absurd h (by simp)
              · simp only [Except.ok.injEq, Prod.mk.injEq] at h
                exact h.2.2.2.symm
            · simp only [Except.ok.injEq, Prod.mk.injEq] at h
              exact h.2.2.2.symm
        · simp only [Except.ok.injEq, Prod.mk.injEq] at h
          exact h.2.2.2.symm

lemma patchTablesLoop_mono {data : List Nat} {pe : Nat} :
    ∀ count tIdx (mutbl : List Nat) p extIdx m2 e2 b2,
      patchTablesLoop data pe count tIdx mutbl p extIdx true = .ok (m2, e2, b2) →
      b2 = true := by
  intro count
  induction count with
  | zero =>
    intro tIdx mutbl p extIdx m2 e2 b2 h
    rw [patchTablesLoop] at h
    simp only [Except.ok.injEq, Prod.mk.injEq] at h
    exact h.2.2.symm
  | succ count ih =>
    intro tIdx mutbl p extIdx m2 e2 b2 h
    rw [patchTablesLoop] at h
    split at h
    · exact absurd h (by simp)
    · next mu pp ee bb heq =>
      have hbb := patchOneTable_mono heq
      subst hbb
      exact ih _ _ _ _ _ _ _ h

lemma patchTableSection_mono {data mutbl2 : List Nat} {payloadOff pe : Nat}
    {extIdx extIdx2 : Option Nat} {b2 : Bool}
    (h : patchTableSection data payloadOff pe extIdx true = .ok (mutbl2, extIdx2, b2)) :
    b2 = true := by
  rw [patchTableSection] at h
  split at h
  · exact absurd h (by simp)
  · exact patchTablesLoop_mono _ _ _ _ _ _ _ _ h

lemma patchOneExport_mono {data mutbl m2 : List Nat} {extIdx p p2 : Nat} {b2 : Bool}
    (h : patchOneExport data extIdx mutbl p true = .ok (m2, p2, b2)) :
    b2 = true := by
  rw [patchOneExport] at h
  split at h
  · exact absurd h (by simp)
  · dsimp only at h
    split at h
    · exact absurd h (by simp)
    · split at h
      · exact absurd h (by simp)
      · split at h
        · split at h
          · exact absurd h (by simp)
          · simp only [Except.ok.injEq, Prod.mk.injEq] at h
            exact h.2.2.symm
        · simp only [Except.ok.injEq, Prod.mk.injEq] at h
          exact h.2.2.symm

lemma patchExportsLoop_mono {data : List Nat} {extIdx : Nat} :
    ∀ count (mutbl : List Nat) p m2 b2,
      patchExportsLoop data extIdx count mutbl p true = .ok (m2, b2) →
      b2 = true := by
  intro count
  induction count with
  | zero =>
    intro mutbl p m2 b2 h
    rw [patchExportsLoop] at h
    simp only [Except.ok.injEq, Prod.mk.injEq] at h
    exact h.2.symm
  | succ count ih =>
    intro mutbl p m2 b2 h
    rw [patchExportsLoop] at h
    split at h
    · exact absurd h (by simp)
    · next mu pp bb heq =>
      have hbb := patchOneExport_mono heq
      subst hbb
      exact ih _ _ _ _ h

lemma patchExportSection_mono {data mutbl2 : List Nat} {payloadOff extIdx : Nat} {b2 : Bool}
    (h : patchExportSection data payloadOff extIdx true = .ok (mutbl2, b2)) :
    b2 = true := by
  rw [patchExportSection] at h
  split at h
  · exact absurd h (by simp)
  · exact patchExportsLoop_mono _ _ _ _ _ h

/-- Walker invariant: when a run ends in an error, the recorded patched
flag at the error is true whenever the flag was true at entry, and when the
flag at the error is false, no write was appended to the trace. -/
lemma sectionsLoop_err_invariant (path : String) :
    ∀ fuel (data : List Nat) off patched extIdx writes w m b,
      sectionsLoop path fuel data off patched extIdx writes = (w, .err m b) →
      (patched = true → b = true) ∧ (b = false → w = writes) := by
  intro fuel
  induction fuel with
  | zero =>
    intro data off patched extIdx writes w m b h
    rw [sectionsLoop] at h
    simp only [Prod.mk.injEq, Outcome.err.injEq] at h
    obtain ⟨rfl, -, rfl⟩ := h
    exact ⟨fun hp => hp, fun _ => rfl⟩
  | succ fuel ih =>
    intro data off patched extIdx writes w m b h
    rw [sectionsLoop] at h
    split at h
    · exact absurd h (by simp)
    · dsimp only at h
      split at h
      · simp only [Prod.mk.injEq, Outcome.err.injEq] at h
        obtain ⟨rfl, -, rfl⟩ := h
        exact ⟨fun hp => hp, fun _ => rfl⟩
      · split at h
        · simp only [Prod.mk.injEq, Outcome.err.injEq] at h
          obtain ⟨rfl, -, rfl⟩ := h
          exact ⟨fun hp => hp, fun _ => rfl⟩
        · split at h
          · exact ih _ _ _ _ _ _ _ _ h
          · split at h
            · -- table section
              split at h
              · simp only [Prod.mk.injEq, Outcome.err.injEq] at h
                obtain ⟨rfl, -, rfl⟩ := h
                exact ⟨fun hp => hp, fun _ => rfl⟩
              · next mu ee bb heq =>
                split at h
                · next hbb =>
                  have h2 := ih _ _ _ _ _ _ _ _ h
                  refine ⟨fun _ => h2.1 hbb, fun hb => ?_⟩
                  exact absurd (h2.1 hbb) (by simp [hb])
                · next hbb =>
                  have h2 := ih _ _ _ _ _ _ _ _ h
                  refine ⟨fun hp => ?_, h2.2⟩
                  subst hp
                  exact absurd (patchTableSection_mono heq) hbb
            · -- export section
              split at h
              · exact ih _ _ _ _ _ _ _ _ h
              · split at h
                · simp only [Prod.mk.injEq, Outcome.err.injEq] at h
                  obtain ⟨rfl, -, rfl⟩ := h
                  exact ⟨fun hp => hp, fun _ => rfl⟩
                · next mu bb heq =>
                  split at h
                  · next hbb =>
                    have h2 := ih _ _ _ _ _ _ _ _ h
                    refine ⟨fun _ => h2.1 hbb, fun hb => ?_⟩
                    exact absurd (h2.1 hbb) (by simp [hb])
                  · next hbb =>
                    have h2 := ih _ _ _ _ _ _ _ _ h
                    refine ⟨fun hp => ?_, h2.2⟩
                    subst hp
                    exact absurd (patchExportSection_mono heq) hbb

/-! Claims. -/

/-- Claim C6, corrected: the round trip `decode (encode v w) = (v, w)` holds
for widths 1 through 6 (not for every width: a width of 7 or more encodes
with at least six continuation bytes, which the decoder rejects).  For
`1 ≤ w ≤ 6` and `v < 2^(7*w)` the fixed-width encoder succeeds and decoding
its output yields `v` with exactly `w` bytes consumed. -/
theorem c6_roundtrip (v w : Nat) (h1 : 1 ≤ w) (h6 : w ≤ 6)
    (hv : v < 2 ^ (7 * w)) :
    encodeVaruintFixedWidth v w = .ok (encBytes v w) ∧
    readVaruint (encBytes v w) 0 = .ok (v, w) := by
  refine ⟨encodeVaruintFixedWidth_ok (by rwa [← two_pow_seven_mul]), ?_⟩
  have := readVaruint_encBytes [] [] h1 h6 hv
  simpa using this

theorem c6_roundtrip_witness :
    encodeVaruintFixedWidth 300 2 = .ok (encBytes 300 2) ∧
    readVaruint (encBytes 300 2) 0 = .ok (300, 2) :=
  c6_roundtrip 300 2 (by norm_num) (by norm_num) (by norm_num)

/-- Claim C6, counterexample to the claim as stated: at width 7 the encoder
succeeds on value 0, but decoding its output raises `varuint too large`
instead of reproducing the value, so the round trip fails for `w = 7`. -/
theorem c6_counterexample :
    encodeVaruintFixedWidth 0 7 = .ok [128, 128, 128, 128, 128, 128, 0] ∧
    readVaruint [128, 128, 128, 128, 128, 128, 0] 0 = .error "varuint too large" :=
  ⟨rfl, rfl⟩

/-- Claim C7, corrected: a successful decode consumes between 1 and 6 bytes
(the source's `shift > 35` guard fires only after a sixth continuation
byte, so 6-byte decodes succeed, contrary to the claimed bound of 5). -/
theorem c7_decode_consumes_one_to_six (data : List Nat) (off v n : Nat)
    (h : readVaruint data off = .ok (v, n)) : 1 ≤ n ∧ n ≤ 6 := by
  obtain ⟨h1, h2, -⟩ := readVaruintAux_ok_bounds data off 6 0 0 0 v n h
  omega

theorem c7_decode_consumes_one_to_six_witness :
    readVaruint [5] 0 = .ok (5, 1) ∧ (1 ≤ 1 ∧ 1 ≤ 6) :=
  ⟨rfl, c7_decode_consumes_one_to_six [5] 0 5 1 rfl⟩

/-- Claim C7, counterexample to the claim as stated: the buffer of five
continuation bytes followed by a terminator decodes successfully while
consuming 6 bytes, exceeding the claimed 5-byte bound. -/
theorem c7_counterexample :
    readVaruint [128, 128, 128, 128, 128, 0] 0 = .ok (0, 6) ∧ ¬ (6 ≤ 5) :=
  ⟨rfl, by norm_num⟩

/-- Claim C10: the replacement maximum `(1 <<< (7 * w)) - 1` computed by the
table-section patcher always fits in `w` bytes, so the `value does not fit
in fixed width` branch of the fixed-width encoder is unreachable from the
table patcher: the encoder succeeds for every width. -/
theorem c10_table_replacement_always_fits (w : Nat) :
    encodeVaruintFixedWidth ((1 <<< (7 * w)) - 1) w =
      .ok (encBytes ((1 <<< (7 * w)) - 1) w) := by
  apply encodeVaruintFixedWidth_ok
  rw [Nat.one_shiftLeft, two_pow_seven_mul]
  have := pow_pos (show 0 < 128 by norm_num) w
  omega

/-- Claim C4, corrected: the run has only two exit statuses, not three:
2 when some candidate fails, and 0 otherwise — both for runs that patched
something and for runs that needed no changes (the `no changes needed`
notice goes to stdout but the exit status is still the success status 0). -/
theorem c4_exit_status_zero_or_two (files : List (String × List Nat)) :
    (runMain files).1 = 0 ∨ (runMain files).1 = 2 := by
  suffices h : ∀ (fs : List (String × List Nat)) a log done,
      (runMainLoop fs a log done).1 = 0 ∨ (runMainLoop fs a log done).1 = 2 from
    h files false [] []
  intro fs
  induction fs with
  | nil => intro a log done; left; rfl
  | cons f rest ih =>
    intro a log done
    obtain ⟨path, content⟩ := f
    cases hpm : patchWasmFile path content with
    | mk writes out =>
      cases out with
      | ok nd did =>
        rw [runMainLoop, hpm]
        exact ih _ _ _
      | err e b =>
        rw [runMainLoop, hpm]
        right; rfl

/-- Claim C4, counterexample to the claim as stated: a run where no
candidate needed changes exits with status 0, the same status as a run
that successfully patched a candidate, so there is no distinct
`no changes needed` status. -/
theorem c4_counterexample :
    runMain [("a", fileC)] = (0, ["no changes needed"], [("a", fileC)]) ∧
    runMain [("b", fileA)] = (0, ["patched: b"], [("b", fileA1)]) :=
  ⟨rfl, rfl⟩

/-- Claim C1, corrected: when a candidate fails, the driver reports the
path and error message and immediately returns exit status 2, leaving all
remaining candidates unprocessed (their stored bytes untouched); it does
not continue to later candidates. -/
theorem c1_first_error_aborts_run (path : String) (content : List Nat)
    (rest : List (String × List Nat)) (anyP : Bool) (log : List String)
    (done : List (String × List Nat)) (w : List (List Nat)) (e : String)
    (b : Bool) (h : patchWasmFile path content = (w, .err e b)) :
    runMainLoop ((path, content) :: rest) anyP log done =
      (2, log ++ ["error: " ++ path ++ ": " ++ e],
       done ++ (path, (w.getLast?).getD content) :: rest) := by
  rw [runMainLoop, h]

theorem c1_first_error_aborts_run_witness :
    patchWasmFile "a" badFile = ([], .err "not a wasm module: a" false) ∧
    runMainLoop [("a", badFile), ("b", fileA)] false [] [] =
      (2, ["error: a: not a wasm module: a"], [("a", badFile), ("b", fileA)]) := by
  refine ⟨rfl, ?_⟩
  have := c1_first_error_aborts_run "a" badFile [("b", fileA)] false [] [] []
    "not a wasm module: a" false rfl
  simpa using this

/-- Claim C1, counterexample to the claim as stated: after the first
candidate fails, the second candidate — which would have been patched — is
never attempted: the run returns status 2 at once and the second file
keeps its original bytes. -/
theorem c1_counterexample :
    runMain [("a", badFile), ("b", fileA)] =
      (2, ["error: a: not a wasm module: a"], [("a", badFile), ("b", fileA)]) ∧
    patchWasmFile "b" fileA = ([fileA1], .ok fileA1 true) ∧ fileA1 ≠ fileA := by
  exact ⟨rfl, rfl, by decide⟩

/-- Claim C2 (code bug): when the recorded externref table index does not
fit in the original index field width, the export patcher does not skip the
rewrite — the fixed-width encoder raises `value does not fit in fixed
width`, which aborts the whole file (the driver then exits with status 2),
contradicting the documented silent-skip behaviour.  Here an export section
holding `__wbindgen_externrefs`, kind 1, a one-byte index 0, processed with
recorded externref table index 128, fails. -/
theorem c2_unfittable_export_index_raises :
    patchExportSection ([1, 21] ++ wbindgenExternrefsName ++ [1, 0]) 0 128 false =
      .error "value does not fit in fixed width" ∧
    encodeVaruintFixedWidth 128 1 = .error "value does not fit in fixed width" :=
  ⟨rfl, rfl⟩

/-- Claim C5: for a table descriptor with element type 0x6F, parsed flags,
initial size and (when the flags bit is set) a maximum of value `maxVal`
occupying `maxN` bytes: the maximum field is rewritten iff
`maxVal < initial + 4`; when rewritten, the in-place replacement is the
encoding of `2^(7*maxN) - 1` (written `(1 <<< (7*maxN)) - 1` as in the
source) in exactly the original `maxN` bytes, all other bytes unchanged
(the `splice` form); tables without an explicit maximum, or with
`maxVal ≥ initial + 4`, leave the buffer untouched. -/
theorem c5_table_patch_threshold
    (data mutbl : List Nat) (payloadEnd tableIdx p : Nat)
    (extIdx : Option Nat) (patched : Bool)
    (flags nf initial ni maxVal maxN : Nat)
    (hp : p < payloadEnd)
    (helem : data.getD p 0 = 0x6F)
    (hflags : readVaruint data (p + 1) = .ok (flags, nf))
    (hinit : readVaruint data (p + 1 + nf) = .ok (initial, ni)) :
    (flags &&& 1 = 0 →
      patchOneTable data payloadEnd tableIdx mutbl p extIdx patched =
        .ok (mutbl, p + 1 + nf + ni,
          (if extIdx = none then some tableIdx else extIdx), patched)) ∧
    (flags &&& 1 ≠ 0 →
      readVaruint data (p + 1 + nf + ni) = .ok (maxVal, maxN) →
      (maxVal < initial + 4 →
        patchOneTable data payloadEnd tableIdx mutbl p extIdx patched =
          .ok (splice mutbl (p + 1 + nf + ni)
                (encBytes ((1 <<< (7 * maxN)) - 1) maxN),
            p + 1 + nf + ni + maxN,
            (if extIdx = none then some tableIdx else extIdx), true) ∧
        (encBytes ((1 <<< (7 * maxN)) - 1) maxN).length = maxN) ∧
      (initial + 4 ≤ maxVal →
        patchOneTable data payloadEnd tableIdx mutbl p extIdx patched =
          .ok (mutbl, p + 1 + nf + ni + maxN,
            (if extIdx = none then some tableIdx else extIdx), patched))) := by
  have hnp : ¬ (payloadEnd ≤ p) := by omega
  have helem2 : data[p]?.getD 0 = 111 := by
    rw [← List.getD_eq_getElem?_getD]; exact helem
  refine ⟨?_, ?_⟩
  · intro h0
    have h0m : flags % 2 = 0 := by rw [← Nat.and_one_is_mod]; exact h0
    simp [patchOneTable, hnp, helem2, hflags, hinit, h0m]
  · intro h1 hmax
    have h1m : flags % 2 = 1 := by
      rw [Nat.and_one_is_mod] at h1; omega
    refine ⟨?_, ?_⟩
    · intro hlt
      have hfit : (1 <<< (7 * maxN)) - 1 < 128 ^ maxN := by
        rw [Nat.one_shiftLeft, two_pow_seven_mul]
        have := pow_pos (show 0 < 128 by norm_num) maxN
        omega
      have henc := encodeVaruintFixedWidth_ok hfit
      refine ⟨?_, encBytes_length _ _⟩
      simp [patchOneTable, hnp, helem2, hflags, hinit, hmax, h1m, hlt, henc]
    · intro hge
      have hnlt : ¬ (maxVal < initial + 4) := by omega
      simp [patchOneTable, hnp, helem2, hflags, hinit, hmax, h1m, hnlt]

theorem c5_table_patch_threshold_witness :
    readVaruint [111, 1, 4, 4] 1 = .ok (1, 1) ∧
    readVaruint [111, 1, 4, 4] 2 = .ok (4, 1) ∧
    readVaruint [111, 1, 4, 4] 3 = .ok (4, 1) ∧
    patchOneTable [111, 1, 4, 4] 4 5 [111, 1, 4, 4] 0 none false =
      .ok ([111, 1, 4, 127], 4, some 5, true) := by
  refine ⟨rfl, rfl, rfl, ?_⟩
  have h := (c5_table_patch_threshold [111, 1, 4, 4] [111, 1, 4, 4] 4 5 0 none false
    1 1 4 1 4 1 (by norm_num) rfl rfl rfl).2 (by norm_num) rfl
  have h2 := (h.1 (by norm_num)).1
  simpa using h2

/-- Claim C9: when the section walker meets an export section (id 7) while
no externref table index has been recorded, it jumps straight to the end of
the section payload with the buffer, patched flag, recorded index and write
trace all unchanged — the hypotheses constrain only the section id byte and
the size varint, never the payload contents, so the payload is skipped
without being read, and no modification is reported. -/
theorem c9_export_section_skipped_without_index
    (path : String) (fuel : Nat) (data : List Nat) (off : Nat) (patched : Bool)
    (writes : List (List Nat)) (sectionSize n : Nat)
    (hoff : off < data.length)
    (hid : data.getD off 0 = 7)
    (hsize : readVaruint data (off + 1) = .ok (sectionSize, n))
    (hend : off + 1 + n + sectionSize ≤ data.length) :
    sectionsLoop path (fuel + 1) data off patched none writes =
      sectionsLoop path fuel data (off + 1 + n + sectionSize) patched none writes := by
  have hid2 : data[off]?.getD 0 = 7 := by
    rw [← List.getD_eq_getElem?_getD]; exact hid
  have h1 : ¬ (data.length ≤ off) := by omega
  have h2 : ¬ (data.length < off + 1 + n + sectionSize) := by omega
  simp [sectionsLoop, h1, h2, hid2, hsize]

theorem c9_export_section_skipped_without_index_witness :
    readVaruint (wasmHeader ++ [7, 1, 0]) 9 = .ok (1, 1) ∧
    sectionsLoop "p" 2 (wasmHeader ++ [7, 1, 0]) 8 false none [] =
      sectionsLoop "p" 1 (wasmHeader ++ [7, 1, 0]) 11 false none [] := by
  refine ⟨rfl, ?_⟩
  have h := c9_export_section_skipped_without_index "p" 1 (wasmHeader ++ [7, 1, 0])
    8 false [] 1 1 (by decide) (by rfl) (by rfl) (by decide)
  simpa using h

/-- Claim C3, corrected: when `patch_wasm_file` aborts with an error and no
section of the file had been patched before the error (the patched flag is
still false), the write trace is empty, so the stored bytes are unchanged.
(The unqualified claim is false: the source writes the file after every
patched section, inside the walker loop, so a file whose table section was
patched is already rewritten on disk when a later section raises.) -/
theorem c3_error_before_any_patch_writes_nothing
    (path : String) (data : List Nat) (w : List (List Nat)) (m : String)
    (h : patchWasmFile path data = (w, .err m false)) : w = [] := by
  rw [patchWasmFile] at h
  split at h
  · simp only [Prod.mk.injEq] at h
    exact h.1.symm
  · exact (sectionsLoop_err_invariant path _ _ _ _ _ _ _ _ _ h).2 rfl

theorem c3_error_before_any_patch_writes_nothing_witness :
    patchWasmFile "p" (wasmHeader ++ [1, 5]) =
      ([], .err "invalid section size in p" false) ∧
    ([] : List (List Nat)) = [] :=
  ⟨rfl, c3_error_before_any_patch_writes_nothing "p" (wasmHeader ++ [1, 5]) []
    "invalid section size in p" (by rfl)⟩

/-- Claim C3, counterexample to the claim as stated: `fileB` has a
patchable table section followed by a section whose declared size runs past
the buffer; the run aborts with an integer-decode or structural error, yet
the file has already been written once (with the table patch applied), so
its stored bytes are changed although the run errored. -/
theorem c3_counterexample :
    patchWasmFile "p" fileB = ([fileB1], .err "invalid section size in p" true) ∧
    fileB1 ≠ fileB :=
  ⟨rfl, by decide⟩

/-- Claim C8, corrected: after a first-run patch, re-reading the patched
field yields the written value, so on a second run the export condition is
always false (the re-read index equals the externref table index) and the
table condition is false whenever `initial + 4 ≤ 2^(7*maxN) - 1`; in both
cases the second-run step leaves the buffer untouched and keeps the
incoming patched flag.  (The unqualified claim is false: when
`initial + 4 > 2^(7*maxN) - 1` — e.g. a large `initial` with a one-byte
maximum — the re-read maximum `2^(7*maxN) - 1` is still below
`initial + 4`, so the second run re-applies the identical patch and
returns true, as the counterexample shows.) -/
theorem c8_second_run_no_patch :
    (∀ (data mutbl2 : List Nat) (payloadEnd tableIdx p : Nat)
       (extIdx2 : Option Nat) (patched2 : Bool)
       (flags nf initial ni maxVal maxN : Nat),
      p < payloadEnd →
      data.getD p 0 = 0x6F →
      readVaruint data (p + 1) = .ok (flags, nf) →
      readVaruint data (p + 1 + nf) = .ok (initial, ni) →
      flags &&& 1 ≠ 0 →
      readVaruint data (p + 1 + nf + ni) = .ok (maxVal, maxN) →
      maxVal < initial + 4 →
      initial + 4 ≤ 2 ^ (7 * maxN) - 1 →
      patchOneTable
          (splice data (p + 1 + nf + ni) (encBytes ((1 <<< (7 * maxN)) - 1) maxN))
          payloadEnd tableIdx mutbl2 p extIdx2 patched2 =
        .ok (mutbl2, p + 1 + nf + ni + maxN,
          (if extIdx2 = none then some tableIdx else extIdx2), patched2)) ∧
    (∀ (data mutbl2 : List Nat) (extIdx p : Nat) (patched2 : Bool)
       (nameLen n idxVal idxN : Nat),
      readVaruint data p = .ok (nameLen, n) →
      (data.drop (p + n)).take nameLen = wbindgenExternrefsName →
      p + n + nameLen < data.length →
      data.getD (p + n + nameLen) 0 = 1 →
      readVaruint data (p + n + nameLen + 1) = .ok (idxVal, idxN) →
      idxVal ≠ extIdx →
      extIdx < 2 ^ (7 * idxN) →
      patchOneExport (splice data (p + n + nameLen + 1) (encBytes extIdx idxN))
          extIdx mutbl2 p patched2 =
        .ok (mutbl2, p + n + nameLen + 1 + idxN, patched2)) := by
  constructor
  · intro data mutbl2 payloadEnd tableIdx p extIdx2 patched2
      flags nf initial ni maxVal maxN hp helem hflags hinit h1 hmax hlt hbig
    have hsh : (1 <<< (7 * maxN)) - 1 = 2 ^ (7 * maxN) - 1 := by
      rw [Nat.one_shiftLeft]
    obtain ⟨hn1, hn6, hnl⟩ := readVaruint_ok_bounds hmax
    obtain ⟨hf1, -, -⟩ := readVaruint_ok_bounds hflags
    obtain ⟨hi1, -, -⟩ := readVaruint_ok_bounds hinit
    have hql : p + 1 + nf + ni ≤ data.length := by omega
    have hwl : (encBytes ((1 <<< (7 * maxN)) - 1) maxN).length = maxN :=
      encBytes_length _ _
    have hlen2 :
        (splice data (p + 1 + nf + ni) (encBytes ((1 <<< (7 * maxN)) - 1) maxN)).length
          = data.length :=
      splice_length (by rw [hwl]; omega)
    have helem2 :
        (splice data (p + 1 + nf + ni) (encBytes ((1 <<< (7 * maxN)) - 1) maxN)).getD p 0
          = 111 := by
      rw [splice_getD_lt hql (by omega)]; exact helem
    have hflags2 :
        readVaruint (splice data (p + 1 + nf + ni)
            (encBytes ((1 <<< (7 * maxN)) - 1) maxN)) (p + 1) = .ok (flags, nf) :=
      readVaruint_congr hlen2 hflags
        (fun j hj1 hj2 => splice_getD_lt hql (by omega))
    have hinit2 :
        readVaruint (splice data (p + 1 + nf + ni)
            (encBytes ((1 <<< (7 * maxN)) - 1) maxN)) (p + 1 + nf) = .ok (initial, ni) :=
      readVaruint_congr hlen2 hinit
        (fun j hj1 hj2 => splice_getD_lt hql (by omega))
    have hvlt : 2 ^ (7 * maxN) - 1 < 2 ^ (7 * maxN) := by
      have := pow_pos (show 0 < 2 by norm_num) (7 * maxN)
      omega
    have hmax2 :
        readVaruint (splice data (p + 1 + nf + ni)
            (encBytes ((1 <<< (7 * maxN)) - 1) maxN)) (p + 1 + nf + ni) =
          .ok (2 ^ (7 * maxN) - 1, maxN) := by
      have hpre : (data.take (p + 1 + nf + ni)).length = p + 1 + nf + ni := by
        simp [List.length_take]; omega
      have hD : splice data (p + 1 + nf + ni) (encBytes ((1 <<< (7 * maxN)) - 1) maxN)
          = data.take (p + 1 + nf + ni) ++ encBytes (2 ^ (7 * maxN) - 1) maxN ++
            data.drop (p + 1 + nf + ni + maxN) := by
        rw [splice, hwl, hsh]
      have hrt := readVaruint_encBytes (data.take (p + 1 + nf + ni))
        (data.drop (p + 1 + nf + ni + maxN)) hn1 hn6 hvlt
      rw [hpre] at hrt
      rw [hD]
      exact hrt
    have hnp : ¬ (payloadEnd ≤ p) := by omega
    have helem2p :
        (splice data (p + 1 + nf + ni)
            (encBytes ((1 <<< (7 * maxN)) - 1) maxN))[p]?.getD 0 = 111 := by
      rw [← List.getD_eq_getElem?_getD]; exact helem2
    have h1m : flags % 2 = 1 := by
      rw [Nat.and_one_is_mod] at h1; omega
    have hnlt : ¬ (2 ^ (7 * maxN) - 1 < initial + 4) := by omega
    simp [patchOneTable, hnp, helem2p, hflags2, hinit2, h1m, hmax2, hnlt]
  · intro data mutbl2 extIdx p patched2 nameLen n idxVal idxN
      hnlen hname hpk hkind hidx hne hfit
    obtain ⟨hx1, hx6, hxl⟩ := readVaruint_ok_bounds hidx
    obtain ⟨hm1, -, -⟩ := readVaruint_ok_bounds hnlen
    have hol : p + n + nameLen + 1 ≤ data.length := by omega
    have hwl : (encBytes extIdx idxN).length = idxN := encBytes_length _ _
    have hlen2 :
        (splice data (p + n + nameLen + 1) (encBytes extIdx idxN)).length
          = data.length :=
      splice_length (by rw [hwl]; omega)
    have hnlen2 :
        readVaruint (splice data (p + n + nameLen + 1) (encBytes extIdx idxN)) p =
          .ok (nameLen, n) :=
      readVaruint_congr hlen2 hnlen
        (fun j hj1 hj2 => splice_getD_lt hol (by omega))
    have hname2 :
        ((splice data (p + n + nameLen + 1) (encBytes extIdx idxN)).drop (p + n)).take
            nameLen = wbindgenExternrefsName := by
      rw [← hname]
      apply List.ext_getElem?
      intro i
      simp only [List.getElem?_take, List.getElem?_drop]
      split
      · next hi =>
        exact splice_getElem?_lt hol (by omega)
      · rfl
    have hkind2 :
        (splice data (p + n + nameLen + 1) (encBytes extIdx idxN)).getD
            (p + n + nameLen) 0 = 1 := by
      rw [splice_getD_lt hol (by omega)]; exact hkind
    have hidx2 :
        readVaruint (splice data (p + n + nameLen + 1) (encBytes extIdx idxN))
            (p + n + nameLen + 1) = .ok (extIdx, idxN) := by
      have hpre : (data.take (p + n + nameLen + 1)).length = p + n + nameLen + 1 := by
        simp [List.length_take]; omega
      have hD : splice data (p + n + nameLen + 1) (encBytes extIdx idxN)
          = data.take (p + n + nameLen + 1) ++ encBytes extIdx idxN ++
            data.drop (p + n + nameLen + 1 + idxN) := by
        rw [splice, hwl]
      have hrt := readVaruint_encBytes (data.take (p + n + nameLen + 1))
        (data.drop (p + n + nameLen + 1 + idxN)) hx1 hx6 hfit
      rw [hpre] at hrt
      rw [hD]
      exact hrt
    have hpk2 :
        ¬ ((splice data (p + n + nameLen + 1) (encBytes extIdx idxN)).length ≤
            p + n + nameLen) := by
      rw [hlen2]; omega
    have hkind2p :
        (splice data (p + n + nameLen + 1)
            (encBytes extIdx idxN))[p + n + nameLen]?.getD 0 = 1 := by
      rw [← List.getD_eq_getElem?_getD]; exact hkind2
    simp [patchOneExport, hnlen2, hname2, hpk2, hkind2p, hidx2]

theorem c8_second_run_no_patch_witness :
    readVaruint [111, 1, 4, 4] 3 = .ok (4, 1) ∧
    patchOneTable (splice [111, 1, 4, 4] 3 (encBytes ((1 <<< (7 * 1)) - 1) 1))
        4 0 [111, 1, 4, 127] 0 none false =
      .ok ([111, 1, 4, 127], 4, some 0, false) := by
  refine ⟨rfl, ?_⟩
  have h := (c8_second_run_no_patch).1 [111, 1, 4, 4] [111, 1, 4, 127] 4 0 0 none false
    1 1 4 1 4 1 (by norm_num) (by rfl) (by rfl) (by rfl) (by norm_num) (by rfl)
    (by norm_num) (by norm_num)
  simpa using h

/-- Claim C8, counterexample to the claim as stated: `fileA` declares an
externref table with initial size 128 and one-byte maximum 0; the first run
patches the maximum to 127 and returns true, but on the re-read bytes the
patch condition `127 < 128 + 4` still holds, so the second run patches
again (writing identical bytes) and returns true, not false. -/
theorem c8_counterexample :
    patchWasmFile "p" fileA = ([fileA1], .ok fileA1 true) ∧
    patchWasmFile "p" fileA1 = ([fileA1], .ok fileA1 true) :=
  ⟨rfl, rfl⟩

end PatchWasmTable
